import Mathlib

/-!
Verification development for the texar embedding / T5 orchestration core.

We give a shallow embedding of four source files:
* `texar/modules/embedders/embedder_utils.py` (`get_embedding`,
  `soft_embedding_lookup`),
* `texar/torch/utils/variables.py` (`add_variable`,
  `collect_trainable_variables`),
* `texar/torch/modules/encoder_decoders/t5_encoder_decoder.py`
  (`T5EncoderDecoder.__init__`, `reset_parameters`, `forward`).

Tensors are modelled as a shape (list of axis sizes), a flat row-major data
list of exact rationals (floating-point values treated as exact reals, as the
claims are structural, not about rounding), and a dtype flag `isFloat`.
-/

/-- A dense tensor: row-major flat data plus shape and a float/integer dtype
tag.  `data.length` is intended to be the product of `shape`, but the
operations below are total and use `getD` so no well-formedness bundle is
needed. -/
structure Tensor where
  shape : List Nat
  data : List ℚ
  isFloat : Bool
deriving Repr, DecidableEq

/-- Product of a list of axis sizes. -/
def prodl (l : List Nat) : Nat := l.foldr (· * ·) 1

/-- Number of elements described by a tensor's shape. -/
def Tensor.numel (t : Tensor) : Nat := prodl t.shape

/-- Model of `x.type(torch.float)` / `torch.tensor(v, dtype=torch.float)`:
a fresh tensor with the same shape and (exactly cast) values, dtype float. -/
def castFloat (t : Tensor) : Tensor := Tensor.mk t.shape t.data true

/-- Model of `torch.empty(size=shape)`: a freshly allocated float tensor of
the given shape.  Its contents are uninitialized in torch; we use zeros as
the arbitrary initial contents (every caller overwrites them). -/
def emptyTensor (shape : List Nat) : Tensor :=
  Tensor.mk shape (List.replicate (prodl shape) 0) true

/-- The `"dim"` hyperparameter: `int or list` in the source
(`@no_typecheck` lets either kind through). -/
inductive DimSpec where
  | scalar (n : Nat)
  | dims (l : List Nat)
deriving Repr, DecidableEq

/-- The normalization `if not isinstance(hparams["dim"], (list, tuple)):
dim = [dim]` in `get_embedding`. -/
def DimSpec.toList : DimSpec → List Nat
  | .scalar n => [n]
  | .dims l => l

/-- Shallow embedding of `embedder_utils.get_embedding`.

`xavier` stands for `torch.nn.init.xavier_uniform_` and `initializer` for the
function resolved by `layers.get_initializer(hparams["initializer"])`; both
are external in-place initializers and enter as function parameters.  The
source either (a) returns `torch.tensor(init_value, dtype=torch.float)` when
`init_value` is given, or (b) allocates `torch.empty(size=[num_embeds]+dim)`
and applies the (default) initializer; with neither `init_value` nor
`num_embeds` the `torch.empty` call raises, modelled as `none`. -/
def get_embedding (xavier : Tensor → Tensor) (dim : DimSpec)
    (initializer : Option (Tensor → Tensor))
    (init_value : Option Tensor) (num_embeds : Option Nat) : Option Tensor :=
  match init_value with
  | some v => some (castFloat v)
  | none =>
    match num_embeds with
    | none => none
    | some v =>
      let e := emptyTensor (v :: dim.toList)
      match initializer with
      | some f => some (f e)
      | none => some (xavier e)

/-- Flat data of `torch.tensordot(a, b, dims=([-1],[0]))` where the
contracted axis has size `k`, the flattened leading axes of `a` have size
`i`, and the flattened trailing axes of `b` have size `j` (row-major). -/
def mmData (i k j : Nat) (a b : List ℚ) : List ℚ :=
  (List.range (i * j)).map (fun n =>
    ∑ m in Finset.range k, a.getD (n / j * k + m) 0 * b.getD (m * j + n % j) 0)

/-- Model of `torch.tensordot(a, b, dims=([-1],[0]))`: contracts `a`'s last
axis with `b`'s first axis; fails (raises, modelled `none`) when either
tensor has rank 0 or the contracted axis sizes differ. -/
def tensordotLast (a b : Tensor) : Option Tensor :=
  match a.shape.getLast?, b.shape.head? with
  | some k1, some k2 =>
    if k1 = k2 then
      some (Tensor.mk (a.shape.dropLast ++ b.shape.tail)
        (mmData (prodl a.shape.dropLast) k1 (prodl b.shape.tail) a.data b.data)
        true)
    else none
  | _, _ => none

/-- Shallow embedding of `embedder_utils.soft_embedding_lookup`:
`torch.tensordot(soft_ids.type(torch.float), embedding, dims=([-1],[0]))`. -/
def soft_embedding_lookup (embedding soft_ids : Tensor) : Option Tensor :=
  tensordotLast (castFloat soft_ids) embedding

/-!
`texar/torch/utils/variables.py`.

A `torch.nn.Parameter` is modelled by an object identity `id` plus a payload
`value`; Python `set` membership for tensors compares `__hash__`/`__eq__`,
which are object identity, never the numeric contents, so the set operations
below compare only `id`.
-/

/-- A trainable parameter: object identity plus (rank-1 flattened) value. -/
structure Param where
  id : Nat
  value : ℚ
deriving Repr, DecidableEq

/-- Python `variable in var_list` on a set of tensors: membership by object
identity. -/
def idMem (p : Param) (l : List Param) : Bool := l.any (fun q => q.id == p.id)

/-- Shallow embedding of `variables.add_variable` at a single parameter (the
list case of its `Union` argument is the fold in
`collect_trainable_variables` below): `if variable not in var_list:
var_list.add(variable)`.  The Python `set` is modelled as an
insertion-ordered duplicate-free list. -/
def add_variable (p : Param) (var_list : List Param) : List Param :=
  if idMem p var_list then var_list else var_list ++ [p]

/-- Shallow embedding of `variables.collect_trainable_variables`: each module
contributes its `trainable_variables` list, and `add_variable` recurses over
that list element by element into the shared set. -/
def collect_trainable_variables (modules : List (List Param)) : List Param :=
  modules.foldl (fun acc m => m.foldl (fun a p => add_variable p a) acc) []

/-!
`texar/torch/modules/encoder_decoders/t5_encoder_decoder.py`.

Parameter names are dot-joined component paths; `reset_parameters` inspects
`name.split('.')[-1]` and the substring test `'layer_norm' not in name`, so
names are modelled as `List Char` with explicit split / substring functions.
-/

/-- Python `str.split('.')` on a character list. -/
def splitOnDot : List Char → List (List Char)
  | [] => [[]]
  | c :: rest =>
    let r := splitOnDot rest
    if c = '.' then [] :: r
    else (c :: r.headD []) :: r.tail

/-- `needle` occurs at the head of `hay`. -/
def leadMatch : List Char → List Char → Bool
  | [], _ => true
  | _ :: _, [] => false
  | a :: as, b :: bs => a == b && leadMatch as bs

/-- Python `needle in hay` substring containment. -/
def containsSub (needle hay : List Char) : Bool :=
  (List.range (hay.length + 1)).any (fun i => leadMatch needle (hay.drop i))

/-- The guard in `T5EncoderDecoder.reset_parameters`:
`name.split('.')[-1] == 'weight' and 'layer_norm' not in name`. -/
def reinitName (name : List Char) : Bool :=
  ((splitOnDot name).getLastD [] == "weight".data) &&
    !(containsSub "layer_norm".data name)

/-- Shallow embedding of `T5EncoderDecoder.reset_parameters` acting on the
module's `named_parameters()` list.  `init` is
`layers.get_initializer(self._hparams.initializer)`: when it resolves to
`None` the loop body is skipped entirely; otherwise every parameter whose
name passes `reinitName` is re-initialized in place by `init`. -/
def reset_parameters {α : Type} (init : Option (α → α))
    (params : List (List Char × α)) : List (List Char × α) :=
  match init with
  | none => params
  | some f =>
    params.map (fun np => if reinitName np.1 then (np.1, f np.2) else np)

/-- The resolved structural dimensions of a `T5EncoderDecoder` configuration:
`hparams.embed.dim`, `hparams.vocab_size`, `hparams.encoder.dim`,
`hparams.decoder.dim`. -/
structure T5Config where
  embedDim : Nat
  vocabSize : Nat
  encoderDim : Nat
  decoderDim : Nat
deriving Repr, DecidableEq

/-- Construction-time failures of the composite model. -/
inductive T5Error where
  | dimensionMismatch
deriving Repr, DecidableEq

/-- The decoder as wired by `T5EncoderDecoder.__init__`: its
`token_embedder` argument is `self._embedding_fn`, which delegates to
`self.word_embedder` (recorded here by that embedder's object identity), and
its `output_layer` argument is a function of the decoder states. -/
structure T5Dec where
  tokenEmbedderId : Nat
  outputLayer : Tensor → Tensor

/-- The assembled composite module. -/
structure T5Model where
  wordEmbedderId : Nat
  encoderId : Nat
  decoder : T5Dec

/-- The wiring of `T5EncoderDecoder.__init__` (src lines 70–84): allocate the
`WordEmbedder` (object identity 0), the `T5Encoder` (identity 1), and the
`T5Decoder` with `token_embedder=self._embedding_fn` — i.e. a reference to
the already-created word embedder, not a fresh embedding table — and
`output_layer=identity`, texar's identity function `fun x => x`. -/
def t5Assemble (_cfg : T5Config) : T5Model :=
  T5Model.mk 0 1 (T5Dec.mk 0 (fun t => t))

/-- Modelled from the spec: the constructors of `WordEmbedder`, `T5Encoder`
and `T5Decoder` (`texar.torch.modules.embedders.embedders`,
`texar.torch.modules.pretrained.t5_utils`) are called by
`T5EncoderDecoder.__init__` but are not under src/.  Per the spec, a
configuration whose encoder or decoder internal model dimension differs from
the embedder's embedding dimension is rejected with `DimensionMismatchError`
during construction, before any forward computation. -/
def t5Construct (cfg : T5Config) : Except T5Error T5Model :=
  if cfg.encoderDim ≠ cfg.embedDim then .error .dimensionMismatch
  else if cfg.decoderDim ≠ cfg.embedDim then .error .dimensionMismatch
  else .ok (t5Assemble cfg)

/-- Shallow embedding of `T5EncoderDecoder.forward` (src lines 331–343): its
body consists solely of a docstring, so the call performs no computation and
returns Python `None`, modelled as `none`, for every input. -/
def t5Forward (_m : T5Model) (_inputs : List (List Nat))
    (_sequence_length : Option (List Nat))
    (_segment_ids : Option (List (List Nat))) : Option Tensor :=
  none

/-! Helper lemmas about the tensor contraction. -/

theorem tensordotLast_eq (a b : Tensor) (v : Nat)
    (ha : a.shape.getLast? = some v) (hb : b.shape.head? = some v) :
    tensordotLast a b = some (Tensor.mk (a.shape.dropLast ++ b.shape.tail)
      (mmData (prodl a.shape.dropLast) v (prodl b.shape.tail) a.data b.data)
      true) := by
  unfold tensordotLast
  rw [ha, hb]
  simp

theorem mmData_length (i k j : Nat) (a b : List ℚ) :
    (mmData i k j a b).length = i * j := by
  simp [mmData]

theorem mmData_getD (i k j : Nat) (a b : List ℚ) (x y : Nat)
    (hx : x < i) (hy : y < j) :
    (mmData i k j a b).getD (x * j + y) 0 =
      ∑ m in Finset.range k, a.getD (x * k + m) 0 * b.getD (m * j + y) 0 := by
  have hj : 0 < j := by omega
  have hn : x * j + y < i * j := by
    have h1 : x * j + y < (x + 1) * j := by
      have := Nat.succ_le_of_lt hy
      calc x * j + y < x * j + j := by omega
        _ = (x + 1) * j := by ring
    exact Nat.lt_of_lt_of_le h1 (Nat.mul_le_mul_right j hx)
  have hget : (mmData i k j a b).get? (x * j + y) =
      some (∑ m in Finset.range k,
        a.getD ((x * j + y) / j * k + m) 0 * b.getD (m * j + (x * j + y) % j) 0) := by
    rw [mmData, List.get?_map, List.get?_range hn]
    rfl
  have hdiv : (x * j + y) / j = x := by
    rw [Nat.mul_comm x j, Nat.mul_add_div hj, Nat.div_eq_of_lt hy]
    omega
  have hmod : (x * j + y) % j = y := by
    rw [Nat.mul_comm x j, Nat.mul_add_mod, Nat.mod_eq_of_lt hy]
  rw [List.getD_eq_get?, hget, hdiv, hmod]
  rfl

/-! Helper lemmas about the trainable-variable set. -/

/-- The object identities of a parameter list. -/
def ids (l : List Param) : List Nat := l.map Param.id

theorem idMem_iff (p : Param) (l : List Param) :
    idMem p l = true ↔ p.id ∈ ids l := by
  simp [idMem, ids, List.any_eq_true, List.mem_map]

theorem ids_add_variable (p : Param) (l : List Param) :
    ids (add_variable p l) =
      if p.id ∈ ids l then ids l else ids l ++ [p.id] := by
  unfold add_variable
  by_cases h : p.id ∈ ids l
  · rw [if_pos ((idMem_iff p l).mpr h), if_pos h]
  · rw [if_neg (fun hc => h ((idMem_iff p l).mp hc)), if_neg h]
    simp [ids]

theorem nodup_ids_foldl (l acc : List Param) (h : (ids acc).Nodup) :
    (ids (l.foldl (fun a p => add_variable p a) acc)).Nodup := by
  induction l generalizing acc with
  | nil => exact h
  | cons p rest ih =>
    rw [List.foldl_cons]
    apply ih
    rw [ids_add_variable]
    by_cases hp : p.id ∈ ids acc
    · simpa [hp]
    · simp [hp, List.nodup_append, h]

theorem mem_ids_add_variable (a : Nat) (p : Param) (l : List Param) :
    a ∈ ids (add_variable p l) ↔ a = p.id ∨ a ∈ ids l := by
  rw [ids_add_variable]
  by_cases h : p.id ∈ ids l
  · rw [if_pos h]
    constructor
    · exact Or.inr
    · rintro (rfl | hh)
      · exact h
      · exact hh
  · rw [if_neg h]
    simp [List.mem_append]
    tauto

theorem mem_ids_foldl (l acc : List Param) (a : Nat) :
    a ∈ ids (l.foldl (fun x p => add_variable p x) acc) ↔
      a ∈ ids acc ∨ a ∈ ids l := by
  induction l generalizing acc with
  | nil => simp [ids]
  | cons p rest ih =>
    rw [List.foldl_cons, ih, mem_ids_add_variable]
    have hcons : a ∈ ids (p :: rest) ↔ a = p.id ∨ a ∈ ids rest := by
      simp [ids]
    rw [hcons]
    tauto

theorem collect_foldl_join (modules : List (List Param)) (acc : List Param) :
    modules.foldl (fun a m => m.foldl (fun x p => add_variable p x) a) acc =
      modules.join.foldl (fun x p => add_variable p x) acc := by
  induction modules generalizing acc with
  | nil => rfl
  | cons m ms ih =>
    rw [List.foldl_cons]
    have hj : (m :: ms).join = m ++ ms.join := rfl
    rw [hj, List.foldl_append]
    exact ih _

theorem countP_eq_count_ids (l : List Param) (a : Nat) :
    l.countP (fun q => q.id == a) = (ids l).count a := by
  induction l with
  | nil => rfl
  | cons p rest ih =>
    rw [List.countP_cons]
    have hcount : (ids (p :: rest)).count a =
        (ids rest).count a + if p.id = a then 1 else 0 := by
      simp [ids, List.count_cons]
    rw [hcount, ih]
    by_cases h : p.id = a
    · simp [h]
    · simp [h]

/-! Spec-side predicates for the initialization pass. -/

/-- The re-initialization condition asserted by the spec sentence: the
parameter is a weight matrix or a bias (last name component `weight` or
`bias`) that does not belong to a normalization layer. -/
def claimWeightOrBias (name : List Char) : Bool :=
  ((splitOnDot name).getLastD [] == "weight".data ||
    (splitOnDot name).getLastD [] == "bias".data) &&
    !(containsSub "layer_norm".data name)

/-- The amended re-initialization condition: the last name component is
exactly `weight` and `layer_norm` occurs nowhere in the dotted name. -/
def specWeightNonNorm (name : List Char) : Bool :=
  ((splitOnDot name).getLastD [] == "weight".data) &&
    !(containsSub "layer_norm".data name)

/-! Claim theorems. -/

/-- C1 (counterexample): a bias parameter outside any normalization layer,
`encoder.poswise.bias`, refutes the claim — the claim's condition (weight
matrix or bias, not in a normalization layer) demands it be re-initialized by
the pass, yet `reset_parameters` leaves it unchanged although the initializer
would have changed its value. -/
theorem c1_counterexample :
    ¬ ∀ (α : Type) (f : α → α) (params : List (List Char × α)),
        reset_parameters (some f) params =
          params.map (fun np =>
            if claimWeightOrBias np.1 then (np.1, f np.2) else np) := by
  intro h
  have h2 := h ℤ (fun q => q + 1) [("encoder.poswise.bias".data, 0)]
  exact absurd h2 (by decide)

/-- C1 (amended): with a configured module-global initializer, the
global-initializer pass re-initializes a named parameter exactly when its
last name component is `weight` and `layer_norm` occurs nowhere in its
dotted name — normalization-layer parameters and all biases are left
unchanged — and with no configured initializer the pass touches nothing. -/
theorem c1_reset_parameters_weights_only {α : Type} (f : α → α)
    (params : List (List Char × α)) :
    reset_parameters (some f) params =
      params.map (fun np =>
        if specWeightNonNorm np.1 then (np.1, f np.2) else np) ∧
    reset_parameters none params = params :=
  ⟨rfl, rfl⟩

/-- C2 (code bug): the body of `T5EncoderDecoder.forward` is a bare
docstring, so calling the assembled model on a valid token batch performs no
encode-decode computation and returns Python `None`. -/
theorem c2_forward_returns_none :
    t5Forward (t5Assemble (T5Config.mk 768 32128 768 768)) [[0, 1, 2]]
      none none = none :=
  rfl

/-- C3: every trainable parameter occurring in the modules passed to
`collect_trainable_variables` appears exactly once in the returned list,
counted by object identity — a parameter shared by several modules is
returned once, while parameters with equal values but distinct identities
are kept separately. -/
theorem c3_collect_trainable_variables_dedup
    (modules : List (List Param)) (p : Param) (hp : p ∈ modules.join) :
    (collect_trainable_variables modules).countP
      (fun q => q.id == p.id) = 1 := by
  unfold collect_trainable_variables
  rw [collect_foldl_join, countP_eq_count_ids]
  have hnd : (ids (modules.join.foldl (fun x p => add_variable p x) [])).Nodup :=
    nodup_ids_foldl _ _ (by simp [ids])
  have hmem : p.id ∈ ids (modules.join.foldl (fun x p => add_variable p x) []) := by
    rw [mem_ids_foldl]
    exact Or.inr (List.mem_map_of_mem Param.id hp)
  have h1 := List.nodup_iff_count_le_one.mp hnd p.id
  have h2 := List.count_pos_iff.mpr hmem
  omega

theorem c3_witness :
    Param.mk 0 5 ∈
      ([[Param.mk 0 5], [Param.mk 0 5, Param.mk 1 5]] : List (List Param)).join ∧
    (collect_trainable_variables
        [[Param.mk 0 5], [Param.mk 0 5, Param.mk 1 5]]).countP
      (fun q => q.id == (Param.mk 0 5).id) = 1 ∧
    (collect_trainable_variables
        [[Param.mk 0 5], [Param.mk 0 5, Param.mk 1 5]]).countP
      (fun q => q.id == (Param.mk 1 5).id) = 1 :=
  ⟨by decide,
    c3_collect_trainable_variables_dedup _ _ (by decide),
    c3_collect_trainable_variables_dedup _ _ (by decide)⟩

/-- C4: a configuration whose encoder or decoder internal model dimension
differs from the embedder's embedding dimension is rejected with
`DimensionMismatchError` at construction time; no model is produced, so no
forward computation can be attempted. -/
theorem c4_construct_dimension_mismatch (cfg : T5Config)
    (h : cfg.encoderDim ≠ cfg.embedDim ∨ cfg.decoderDim ≠ cfg.embedDim) :
    t5Construct cfg = Except.error T5Error.dimensionMismatch := by
  unfold t5Construct
  by_cases h1 : cfg.encoderDim ≠ cfg.embedDim
  · rw [if_pos h1]
  · rw [if_neg h1]
    have h2 : cfg.decoderDim ≠ cfg.embedDim := by tauto
    rw [if_pos h2]

theorem c4_witness :
    ((T5Config.mk 768 32128 512 768).encoderDim ≠
        (T5Config.mk 768 32128 512 768).embedDim ∨
      (T5Config.mk 768 32128 512 768).decoderDim ≠
        (T5Config.mk 768 32128 512 768).embedDim) ∧
    t5Construct (T5Config.mk 768 32128 512 768) =
      Except.error T5Error.dimensionMismatch :=
  ⟨Or.inl (by decide),
    c4_construct_dimension_mismatch _ (Or.inl (by decide))⟩

/-- C5: when `init_value` is supplied, `get_embedding` returns exactly that
value cast to floating point with shape unchanged, and neither the
configured `dim` nor the configured `initializer` affects the result. -/
theorem c5_get_embedding_init_value (xavier xavier₂ : Tensor → Tensor)
    (dim dim₂ : DimSpec) (initializer initializer₂ : Option (Tensor → Tensor))
    (v : Tensor) (num_embeds num_embeds₂ : Option Nat) :
    get_embedding xavier dim initializer (some v) num_embeds
        = some (Tensor.mk v.shape v.data true) ∧
      get_embedding xavier dim initializer (some v) num_embeds
        = get_embedding xavier₂ dim₂ initializer₂ (some v) num_embeds₂ :=
  ⟨rfl, rfl⟩

/-- C6: with `init_value` absent and `num_embeds = v` supplied,
`get_embedding` returns a tensor of shape `v :: dims` where `dims` is the
configured `dim` normalized to a list — a scalar dim `e` yields `[v, e]` —
provided the configured and default initializers are shape-preserving, as
torch in-place initializers are. -/
theorem c6_get_embedding_fresh_shape (xavier : Tensor → Tensor)
    (dim : DimSpec) (initializer : Option (Tensor → Tensor)) (v : Nat)
    (hx : ∀ t, (xavier t).shape = t.shape)
    (hf : ∀ f t, initializer = some f → (f t).shape = t.shape) :
    ∃ t, get_embedding xavier dim initializer none (some v) = some t ∧
      t.shape = v :: dim.toList := by
  cases initializer with
  | none =>
    refine ⟨_, rfl, ?_⟩
    rw [hx]
    rfl
  | some f =>
    refine ⟨_, rfl, ?_⟩
    rw [hf f _ rfl]
    rfl

theorem c6_witness :
    ∃ t, get_embedding (fun t => t) (DimSpec.scalar 3) none none (some 4)
        = some t ∧
      t.shape = 4 :: (DimSpec.scalar 3).toList :=
  c6_get_embedding_fresh_shape (fun t => t) (DimSpec.scalar 3) none 4
    (fun _ => rfl) (fun _ _ h => nomatch h)

/-- C7: whenever the soft-weights' last axis size equals the table's first
axis size `v`, `soft_embedding_lookup` succeeds with a tensor of shape
`soft_ids.shape[:-1] ++ embedding.shape[1:]` whose entries are the tensor
contraction pairing the weights' last axis with the table's first axis. -/
theorem c7_soft_embedding_lookup_contraction (emb w : Tensor) (v : Nat)
    (hw : w.shape.getLast? = some v) (he : emb.shape.head? = some v) :
    ∃ r, soft_embedding_lookup emb w = some r ∧
      r.shape = w.shape.dropLast ++ emb.shape.tail ∧
      r.data.length = prodl w.shape.dropLast * prodl emb.shape.tail ∧
      ∀ x y, x < prodl w.shape.dropLast → y < prodl emb.shape.tail →
        r.data.getD (x * prodl emb.shape.tail + y) 0 =
          ∑ m in Finset.range v, w.data.getD (x * v + m) 0 *
            emb.data.getD (m * prodl emb.shape.tail + y) 0 :=
  ⟨_, tensordotLast_eq (castFloat w) emb v hw he, rfl,
    mmData_length _ _ _ _ _,
    fun x y hx hy => mmData_getD _ _ _ _ _ x y hx hy⟩

theorem c7_witness :
    (Tensor.mk [2] [10, 20] true).shape.getLast? = some 2 ∧
    ∃ r, soft_embedding_lookup (Tensor.mk [2, 3] [1, 2, 3, 4, 5, 6] true)
        (Tensor.mk [2] [10, 20] true) = some r :=
  ⟨rfl,
    (c7_soft_embedding_lookup_contraction
        (Tensor.mk [2, 3] [1, 2, 3, 4, 5, 6] true)
        (Tensor.mk [2] [10, 20] true) 2 rfl rfl).imp
      (fun _ hr => hr.1)⟩

/-- C8: for an embedding table of shape `[v, e]` and soft weights that are a
one-hot distribution with all mass on index `i` at flat leading position
`p`, the lookup result at position `p` equals row `i` of the table
exactly. -/
theorem c8_soft_embedding_lookup_one_hot (t w : Tensor) (v e i p : Nat)
    (ht : t.shape = [v, e])
    (hw : w.shape.getLast? = some v)
    (hp : p < prodl w.shape.dropLast)
    (hi : i < v)
    (hone : ∀ m, m < v → w.data.getD (p * v + m) 0 = if m = i then 1 else 0) :
    ∃ r, soft_embedding_lookup t w = some r ∧
      ∀ x, x < e → r.data.getD (p * e + x) 0 = t.data.getD (i * e + x) 0 := by
  have he : t.shape.head? = some v := by rw [ht]; rfl
  have hpe : prodl t.shape.tail = e := by rw [ht]; simp [prodl]
  refine ⟨_, tensordotLast_eq (castFloat w) t v hw he, ?_⟩
  intro x hx
  show (mmData (prodl (castFloat w).shape.dropLast) v (prodl t.shape.tail)
      (castFloat w).data t.data).getD (p * e + x) 0 = t.data.getD (i * e + x) 0
  rw [hpe]
  rw [mmData_getD (prodl (castFloat w).shape.dropLast) v e
    (castFloat w).data t.data p x hp hx]
  have hcongr : ∀ m ∈ Finset.range v,
      (castFloat w).data.getD (p * v + m) 0 * t.data.getD (m * e + x) 0 =
        if m = i then t.data.getD (m * e + x) 0 else 0 := by
    intro m hm
    have hm2 := hone m (Finset.mem_range.mp hm)
    rw [show (castFloat w).data = w.data from rfl, hm2]
    by_cases hmi : m = i
    · simp [hmi]
    · simp [hmi]
  rw [Finset.sum_congr rfl hcongr,
    Finset.sum_ite_eq' (Finset.range v) i (fun m => t.data.getD (m * e + x) 0),
    if_pos (Finset.mem_range.mpr hi)]

theorem c8_witness :
    ∃ r, soft_embedding_lookup (Tensor.mk [2, 2] [10, 20, 30, 40] true)
        (Tensor.mk [1, 2] [0, 1] true) = some r ∧
      ∀ x, x < 2 →
        r.data.getD (0 * 2 + x) 0 =
          (Tensor.mk [2, 2] [10, 20, 30, 40] true).data.getD (1 * 2 + x) 0 :=
  c8_soft_embedding_lookup_one_hot
    (Tensor.mk [2, 2] [10, 20, 30, 40] true)
    (Tensor.mk [1, 2] [0, 1] true) 2 2 1 0
    rfl rfl (by decide) (by decide) (by decide)

/-- C9: the assembler passes texar's `identity` (the identity transform) as
the decoder's `output_layer` and wires the decoder's `token_embedder` to the
very `WordEmbedder` instance that embeds the encoder's inputs — same object
identity, no duplicated table. -/
theorem c9_decoder_identity_and_shared_embedder (cfg : T5Config) :
    (t5Assemble cfg).decoder.outputLayer = (fun t => t) ∧
      (t5Assemble cfg).decoder.tokenEmbedderId =
        (t5Assemble cfg).wordEmbedderId :=
  ⟨rfl, rfl⟩

/-- C10: `soft_embedding_lookup` casts its weights to float before the
contraction: for an integer-typed weights tensor with matching contracted
axis the call succeeds, returns a floating-point tensor, and agrees with the
call on the same weights pre-cast to float. -/
theorem c10_soft_embedding_lookup_casts (emb w : Tensor) (v : Nat)
    (_hint : w.isFloat = false)
    (hw : w.shape.getLast? = some v) (he : emb.shape.head? = some v) :
    ∃ r, soft_embedding_lookup emb w = some r ∧ r.isFloat = true ∧
      soft_embedding_lookup emb w = soft_embedding_lookup emb (castFloat w) :=
  ⟨_, tensordotLast_eq (castFloat w) emb v hw he, rfl, rfl⟩

theorem c10_witness :
    (Tensor.mk [2] [0, 1] false).isFloat = false ∧
    ∃ r, soft_embedding_lookup (Tensor.mk [2, 2] [10, 20, 30, 40] true)
        (Tensor.mk [2] [0, 1] false) = some r ∧ r.isFloat = true ∧
      soft_embedding_lookup (Tensor.mk [2, 2] [10, 20, 30, 40] true)
          (Tensor.mk [2] [0, 1] false) =
        soft_embedding_lookup (Tensor.mk [2, 2] [10, 20, 30, 40] true)
          (castFloat (Tensor.mk [2] [0, 1] false)) :=
  ⟨rfl, c10_soft_embedding_lookup_casts _ _ 2 rfl rfl rfl⟩
